import Mathlib

/-!
Verification development for the quirzry-backend generation pipeline.

Text is modelled as `List Char`.  JavaScript request/response values are
modelled by the inductive `JSVal`; JS numbers are restricted to the
integer-valued case (the controllers only ever produce or compare integer
counts and indices).  Each definition below is a shallow embedding of the
corresponding function in `src/controllers/quiz.controller.js`,
`src/controllers/flashcard.controller.js` or their prompt helpers.
-/

namespace Quirzry

/-- Backtick character (U+0060), kept out of character literals. -/
def bq : Char := Char.ofNat 96

/-- JS `String.prototype.trim` whitespace class (ASCII part). -/
def isJSWhitespace (c : Char) : Bool :=
  c == ' ' || c == '\t' || c == '\n' || c == '\r' || c == '\x0b' || c == '\x0c'

/-- JS `String.prototype.trim` on a character list. -/
def trimL (l : List Char) : List Char :=
  ((l.dropWhile isJSWhitespace).reverse.dropWhile isJSWhitespace).reverse

/-- Boolean list-prefix test (JS `String.prototype.startsWith`). -/
def isPreL : List Char → List Char → Bool
  | [], _ => true
  | _ :: _, [] => false
  | a :: p, b :: l => a == b && isPreL p l

/-- Boolean list-suffix test (JS `String.prototype.endsWith`). -/
def isSufL (p l : List Char) : Bool := isPreL p.reverse l.reverse

/-- Boolean substring test (JS `String.prototype.includes`). -/
def containsSub (p : List Char) : List Char → Bool
  | [] => isPreL p []
  | c :: r => isPreL p (c :: r) || containsSub p r

/-- Lower-casing a character list (JS `String.prototype.toLowerCase`,
ASCII-faithful). -/
def lowerL (l : List Char) : List Char := l.map Char.toLower

/-- JavaScript-like values appearing in request bodies and parsed model
payloads.  Numbers are restricted to integer values. -/
inductive JSVal where
  | undef
  | null
  | bool (b : Bool)
  | num (n : Int)
  | str (s : List Char)
  | arr (xs : List JSVal)
  | obj (fields : List (String × JSVal))

/-- JS truthiness. -/
def jsTruthy : JSVal → Bool
  | .undef => false
  | .null => false
  | .bool b => b
  | .num n => n != 0
  | .str s => !s.isEmpty
  | .arr _ => true
  | .obj _ => true

/-- JS `typeof v === "object"` (true for null, arrays and plain objects). -/
def typeofIsObject : JSVal → Bool
  | .null => true
  | .arr _ => true
  | .obj _ => true
  | _ => false

/-- JS `typeof v === "string"`. -/
def typeofIsString : JSVal → Bool
  | .str _ => true
  | _ => false

/-- JS `typeof v === "number"`. -/
def typeofIsNumber : JSVal → Bool
  | .num _ => true
  | _ => false

/-- JS `Array.isArray`. -/
def isArrayVal : JSVal → Bool
  | .arr _ => true
  | _ => false

/-- Elements of an array value (empty for non-arrays; only used behind an
`isArrayVal` guard, mirroring the source). -/
def arrOf : JSVal → List JSVal
  | .arr xs => xs
  | _ => []

/-- Characters of a string value (only used behind a `typeofIsString`
guard, mirroring the source). -/
def strOf : JSVal → List Char
  | .str s => s
  | _ => []

/-- JS property access `v[k]`: `undefined` on absent keys and on
non-object values (mirroring how the controllers read fields). -/
def getField (v : JSVal) (k : String) : JSVal :=
  match v with
  | .obj fs =>
    match fs.find? (fun p => p.1 == k) with
    | some p => p.2
    | none => .undef
  | _ => .undef

mutual

/-- JS `String(v)` coercion. -/
def jsToString : JSVal → List Char
  | .undef => "undefined".data
  | .null => "null".data
  | .bool true => "true".data
  | .bool false => "false".data
  | .num n => (toString n).data
  | .str s => s
  | .arr xs => jsArrToString xs
  | .obj _ => "[object Object]".data
termination_by v => (sizeOf v, 0)

/-- JS `Array.prototype.toString` (comma join of element strings). -/
def jsArrToString : List JSVal → List Char
  | [] => []
  | [v] => jsElemToString v
  | v :: w :: vs => jsElemToString v ++ ',' :: jsArrToString (w :: vs)
termination_by xs => (sizeOf xs, 0)

/-- Element coercion inside `Array.prototype.toString`: null and undefined
become the empty string. -/
def jsElemToString : JSVal → List Char
  | .undef => []
  | .null => []
  | v => jsToString v
termination_by v => (sizeOf v, 1)

end

/-! ## Quiz item validation (quiz.controller.js, generateQuiz lines 137-196) -/

/-- JS `Array.prototype.indexOf` with a string needle over the raw
`options` array (strict equality, so only string entries can match);
`-1` when absent. -/
def idxOfVal (opts : List JSVal) (s : List Char) : Int :=
  match opts with
  | [] => -1
  | v :: vs =>
    match v with
    | .str t => if t == s then 0 else
        let r := idxOfVal vs s
        if r == -1 then -1 else r + 1
    | _ =>
        let r := idxOfVal vs s
        if r == -1 then -1 else r + 1

/-- JS `Array.prototype.indexOf` over a list of strings; `-1` when
absent. -/
def idxOfStr (opts : List (List Char)) (s : List Char) : Int :=
  match opts with
  | [] => -1
  | t :: ts => if t == s then 0 else
      let r := idxOfStr ts s
      if r == -1 then -1 else r + 1

/-- The `correctAnswer` normalization of `generateQuiz` (lines 155-172):
a number is used as-is; a string is looked up among the options by strict
`indexOf`, then by a trimmed compare; anything else (or no match) throws,
modelled as `none`. -/
def normalizeAnswerIndex (ca : JSVal) (opts : List JSVal) : Option Int :=
  match ca with
  | .num n => some n
  | .str s =>
    let i := idxOfVal opts s
    if i == -1 then
      let t := idxOfStr (opts.map (fun o => trimL (jsToString o))) (trimL s)
      if t == -1 then none else some t
    else some i
  | _ => none

/-- Canonical validated quiz question. -/
structure CanonQ where
  questionText : List Char
  options : List (List Char)
  correctAnswer : Int
deriving DecidableEq

/-- Per-item validation of `generateQuiz` (the try/catch body of lines
141-187); a thrown validation error is modelled as `none` (the item is
skipped by the `continue`). -/
def validateQuestion (q : JSVal) : Option CanonQ :=
  if !(jsTruthy q) || !(typeofIsObject q) then none
  else
    let qt := getField q "questionText"
    if !(jsTruthy qt) || !(typeofIsString qt) then none
    else
      let opts := getField q "options"
      if !(jsTruthy opts) || !(isArrayVal opts) || !(arrOf opts).length == 4 then none
      else
        match normalizeAnswerIndex (getField q "correctAnswer") (arrOf opts) with
        | none => none
        | some i =>
          if i < 0 || 3 < i then none
          else some ⟨trimL (strOf qt), (arrOf opts).map (fun o => trimL (jsToString o)), i⟩

/-- Whole-call failures of the parsing/validation stage of `generateQuiz`
(each corresponds to a thrown error answered with HTTP 500). -/
inductive QuizFailure where
  | invalidStructure
  | noQuestionsGenerated
  | noValidQuestions
deriving DecidableEq

/-- Successful validation outcome: the validated items in order, and the
accepted count reported as `questionCount` in the response. -/
structure QuizSuccess where
  items : List CanonQ
  acceptedCount : Nat
deriving DecidableEq

/-- Top-level `questions` collection extraction (lines 117-119): fails
when the field is falsy or not an array. -/
def questionsOf (payload : JSVal) : Option (List JSVal) :=
  let v := getField payload "questions"
  if !(jsTruthy v) || !(isArrayVal v) then none else some (arrOf v)

/-- Structure check + per-item validation of a parsed quiz payload
(lines 116-196 of `generateQuiz`): missing/non-array `questions` and an
empty parsed list fail during parsing; zero surviving items fails after
validation; otherwise all surviving items are returned in order. -/
def processQuizPayload (payload : JSVal) : Except QuizFailure QuizSuccess :=
  match questionsOf payload with
  | none => .error .invalidStructure
  | some qs =>
    if qs.length == 0 then .error .noQuestionsGenerated
    else
      let validated := qs.filterMap validateQuestion
      if validated.length == 0 then .error .noValidQuestions
      else .ok ⟨validated, validated.length⟩

/-! ## Item-count clamping (quiz line 64, flashcard line 128) -/

/-- JS `parseInt(s, 10)` on a string: skip leading whitespace, optional
sign, then a maximal run of decimal digits; `none` models `NaN`. -/
def parseIntChars (s : List Char) : Option Int :=
  let t := s.dropWhile isJSWhitespace
  match t with
  | '-' :: r =>
    let ds := r.takeWhile Char.isDigit
    if ds.isEmpty then none
    else some (-(ds.foldl (fun a c => a * 10 + (c.toNat - 48)) 0 : Nat))
  | '+' :: r =>
    let ds := r.takeWhile Char.isDigit
    if ds.isEmpty then none
    else some (ds.foldl (fun a c => a * 10 + (c.toNat - 48)) 0 : Nat)
  | r =>
    let ds := r.takeWhile Char.isDigit
    if ds.isEmpty then none
    else some (ds.foldl (fun a c => a * 10 + (c.toNat - 48)) 0 : Nat)

/-- JS `parseInt(v, 10)` on an arbitrary value: the value is coerced to a
string first.  `none` models `NaN`. -/
def jsParseInt (v : JSVal) : Option Int := parseIntChars (jsToString v)

/-- JS `x || d` applied after `parseInt`: `NaN` and `0` are falsy. -/
def orDefault (x : Option Int) (d : Int) : Int :=
  match x with
  | none => d
  | some 0 => d
  | some k => k

/-- ES default-parameter semantics of
`const { questionCount = d } = req.body`: the default applies exactly
when the field is `undefined`. -/
def withDefault (v : JSVal) (d : JSVal) : JSVal :=
  match v with
  | .undef => d
  | w => w

/-- Effective quiz question count (quiz.controller.js line 64):
`Math.min(Math.max(parseInt(questionCount, 10) || 15, 10), 50)` with
default parameter 15. -/
def effQuestionCount (v : JSVal) : Int :=
  min (max (orDefault (jsParseInt (withDefault v (.num 15))) 15) 10) 50

/-- Effective flashcard count (flashcard.controller.js line 128):
`Math.min(Math.max(parseInt(cardCount, 10) || 10, 5), 30)` with default
parameter 10. -/
def effCardCount (v : JSVal) : Int :=
  min (max (orDefault (jsParseInt (withDefault v (.num 10))) 10) 5) 30

/-! ## Catch-block error classification (quiz lines 236-257, flashcard
lines 211-221) -/

/-- Outcome classes of the catch blocks: 500 configuration error,
429 overloaded, generic 500. -/
inductive ErrClass where
  | configFailure
  | overloaded
  | generic
deriving DecidableEq

/-- Quiz controller catch block: case-sensitive `includes` checks on the
raw error message, `"API key"` first, then `"quota"`. -/
def classifyQuizError (msg : List Char) : ErrClass :=
  if containsSub "API key".data msg then .configFailure
  else if containsSub "quota".data msg then .overloaded
  else .generic

/-- Flashcard controller catch block: the message is lower-cased, then
`"api key"`/`"unauthorized"` are checked before
`"quota"`/`"too many requests"`. -/
def classifyFlashcardError (msg : List Char) : ErrClass :=
  let m := lowerL msg
  if containsSub "api key".data m || containsSub "unauthorized".data m then .configFailure
  else if containsSub "quota".data m || containsSub "too many requests".data m then .overloaded
  else .generic

/-! ## Provider selection (flashcard.controller.js lines 44-45, 120-122) -/

/-- The two configured providers. -/
inductive Provider where
  | groq
  | gemini
deriving DecidableEq

/-- Provider selection: `requestCounter++; useGroq = requestCounter % 2
=== 0`.  Takes the current counter value and returns the incremented
counter together with the chosen provider. -/
def selectProvider (counter : Nat) : Nat × Provider :=
  let c := counter + 1
  (c, if c % 2 == 0 then .groq else .gemini)

/-- The fixed ordered adapter list realised by the parity choice:
index `counter % 2` picks groq on even counters and gemini on odd
ones. -/
def adapters : List Provider := [.groq, .gemini]

/-! ## Flashcard validation (flashcard.controller.js lines 169-180) -/

/-- Canonical validated flashcard. -/
structure CanonCard where
  front : List Char
  back : List Char
  cardNumber : Nat
deriving DecidableEq

/-- The `.map((card, index) => ...)` step, numbering surviving cards from
`i + 1` upward. -/
def numberCards (i : Nat) : List JSVal → List CanonCard
  | [] => []
  | c :: cs =>
    ⟨trimL (jsToString (getField c "front")), trimL (jsToString (getField c "back")), i + 1⟩
      :: numberCards (i + 1) cs

/-- Flashcard validation: `.filter(card => card.front && card.back)`
then trim/coerce with 1-based card numbers. -/
def validateCards (cards : List JSVal) : List CanonCard :=
  numberCards 0
    (cards.filter (fun c => jsTruthy (getField c "front") && jsTruthy (getField c "back")))

/-! ## Markdown-fence cleaning (quiz lines 84-98; parseFlashcardJSON
lines 97-99 chains the same three anchored replacements) -/

/-- Effect of the regex `^...\n?` replacement: an optional newline after
the removed literal marker is also removed. -/
def dropOptNl : List Char → List Char
  | '\n' :: r => r
  | r => r

/-- Removal of a trailing fence by the regex `\n?` ++ fence ++ `$`: the
fence and an optional preceding newline are dropped from the end. -/
def dropTrailFence (l : List Char) : List Char :=
  if isSufL ['\n', bq, bq, bq] l then (l.reverse.drop 4).reverse
  else (l.reverse.drop 3).reverse

/-- The cleaning stage of the parser (quiz.controller.js lines 85-98):
trim, strip one leading tagged fence (the three-backtick marker followed
by "json"), one leading untagged fence and one trailing fence, then trim
again. -/
def cleanText (t : List Char) : List Char :=
  let c0 := trimL t
  let c1 := if isPreL [bq, bq, bq, 'j', 's', 'o', 'n'] c0 then dropOptNl (c0.drop 7) else c0
  let c2 := if isPreL [bq, bq, bq] c1 then dropOptNl (c1.drop 3) else c1
  let c3 := if isSufL [bq, bq, bq] c2 then dropTrailFence c2 else c2
  trimL c3

/-- The fence wrapping considered by the idempotence property: a leading
tagged fence line and a trailing fence line around the JSON text. -/
def fenceWrap (s : List Char) : List Char :=
  [bq, bq, bq, 'j', 's', 'o', 'n', '\n'] ++ s ++ ['\n', bq, bq, bq]

/-! ## Option-valued index lookup (used to state the normalization
behaviour of string answers) -/

/-- First index of an exact match in a list of strings, `none` when
absent (the `Option` form of `indexOf`). -/
def natIdxOf (l : List (List Char)) (s : List Char) : Option Nat :=
  match l with
  | [] => none
  | t :: ts => if t == s then some 0 else (natIdxOf ts s).map (· + 1)

/-- The lookup a string `correctAnswer` undergoes: first an exact match
among the options, then a match of the trimmed answer among the trimmed
options. -/
def exactThenTrimmedIdx (s : List Char) (opts : List (List Char)) : Option Nat :=
  match natIdxOf opts s with
  | some i => some i
  | none => natIdxOf (opts.map trimL) (trimL s)

/-! ## Concrete inputs used by witnesses and counterexamples -/

/-- A fully valid quiz item with a numeric answer index. -/
def goodQuizItem : JSVal :=
  .obj [("questionText", .str "Q?".data),
        ("options", .arr [.str "A".data, .str "B".data, .str "C".data, .str "D".data]),
        ("correctAnswer", .num 0)]

/-- The canonical form of `goodQuizItem`. -/
def goodQuizCanon : CanonQ := ⟨"Q?".data, ["A".data, "B".data, "C".data, "D".data], 0⟩

/-- The spec's worked example: `correctAnswer: "Paris"` with the four
capital options. -/
def parisQuizItem : JSVal :=
  .obj [("questionText", .str "Capital of France?".data),
        ("options", .arr [.str "London".data, .str "Paris".data, .str "Berlin".data, .str "Madrid".data]),
        ("correctAnswer", .str "Paris".data)]

/-- The spec's other worked example: `correctAnswer: "2"`, a
numeric-looking string, with the same four capital options. -/
def twoStringQuizItem : JSVal :=
  .obj [("questionText", .str "Capital of France?".data),
        ("options", .arr [.str "London".data, .str "Paris".data, .str "Berlin".data, .str "Madrid".data]),
        ("correctAnswer", .str "2".data)]

/-- A payload whose `questions` array holds 11 valid items. -/
def quizPayload11 : JSVal := .obj [("questions", .arr (List.replicate 11 goodQuizItem))]

/-- A payload mixing one valid item with one item that fails validation. -/
def mixedQuizPayload : JSVal := .obj [("questions", .arr [goodQuizItem, twoStringQuizItem])]

/-- A flashcard whose `front` is a single space: truthy, but trimming to
the empty string. -/
def wsFrontCard : JSVal := .obj [("front", .str " ".data), ("back", .str "x".data)]

/-! ## Basic evaluation lemmas -/

@[simp] theorem jsToString_str (s : List Char) : jsToString (.str s) = s := by
  simp [jsToString]

@[simp] theorem jsToString_num (n : Int) : jsToString (.num n) = (toString n).data := by
  simp [jsToString]

/-! ## Index lookup lemmas -/

theorem idxOfStr_eq (l : List (List Char)) (s : List Char) :
    idxOfStr l s = (natIdxOf l s).elim (-1) (fun i => (i : Int)) := by
  induction l with
  | nil => rfl
  | cons t ts ih =>
    by_cases h : t == s
    · simp [idxOfStr, natIdxOf, h]
    · simp only [idxOfStr, natIdxOf, h, if_neg, Bool.not_eq_true] at *
      rw [ih]
      cases hn : natIdxOf ts s with
      | none => simp [h, hn]
      | some i => simp [h, hn]

theorem idxOfVal_map_str (opts : List (List Char)) (s : List Char) :
    idxOfVal (opts.map .str) s = idxOfStr opts s := by
  induction opts with
  | nil => rfl
  | cons t ts ih => simp only [List.map_cons, idxOfVal, idxOfStr, ih]

theorem natIdxOf_lt_length (l : List (List Char)) (s : List Char) (i : Nat)
    (h : natIdxOf l s = some i) : i < l.length := by
  induction l generalizing i with
  | nil => cases h
  | cons t ts ih =>
    rw [natIdxOf] at h
    split at h
    · cases h
      simp
    · cases hn : natIdxOf ts s with
      | none => rw [hn] at h; cases h
      | some j =>
        rw [hn] at h
        simp only [Option.map_some'] at h
        cases h
        have := ih j hn
        simp only [List.length_cons]
        omega

theorem map_trim_collapse (opts : List (List Char)) :
    (opts.map JSVal.str).map (fun o => trimL (jsToString o)) = opts.map trimL := by
  simp [List.map_map, Function.comp]

theorem exactThenTrimmedIdx_lt (s : List Char) (opts : List (List Char)) (i : Nat)
    (h : exactThenTrimmedIdx s opts = some i) : i < opts.length := by
  rw [exactThenTrimmedIdx] at h
  cases hn : natIdxOf opts s with
  | some j =>
    rw [hn] at h
    cases h
    exact natIdxOf_lt_length _ _ _ hn
  | none =>
    rw [hn] at h
    have := natIdxOf_lt_length _ _ _ h
    simpa using this

theorem normalize_str_eq (s : List Char) (opts : List (List Char)) :
    normalizeAnswerIndex (.str s) (opts.map .str) =
      (exactThenTrimmedIdx s opts).map (fun i => (i : Int)) := by
  rw [normalizeAnswerIndex]
  dsimp only
  rw [idxOfVal_map_str, idxOfStr_eq]
  cases hn : natIdxOf opts s with
  | some i =>
    have hne : ((i : Int) == -1) = false := by
      simp only [beq_eq_false_iff_ne, ne_eq]
      omega
    simp [exactThenTrimmedIdx, hn, hne]
  | none =>
    rw [map_trim_collapse, idxOfStr_eq]
    cases ht : natIdxOf (opts.map trimL) (trimL s) with
    | some j =>
      have hne : ((j : Int) == -1) = false := by
        simp only [beq_eq_false_iff_ne, ne_eq]
        omega
      simp [exactThenTrimmedIdx, hn, ht, hne]
    | none => simp [exactThenTrimmedIdx, hn, ht]

/-! ## Claim C1 -/

/-- Claim C1 counterexample: the numeric-looking string `correctAnswer`
"2" with options `["London","Paris","Berlin","Madrid"]` is NOT parsed to
the integer index 2 — the string is looked up literally among the
options, no match is found, and the item is dropped. -/
theorem numeric_string_not_parsed_cex :
    validateQuestion twoStringQuizItem = none := by
  simp [validateQuestion, twoStringQuizItem, getField, jsTruthy, typeofIsObject,
    typeofIsString, isArrayVal, arrOf, strOf, normalizeAnswerIndex, idxOfVal, idxOfStr,
    trimL, isJSWhitespace, List.find?]

/-- Claim C1 (amended): every string `correctAnswer`, numeric-looking or
not, is treated as literal answer text and located among the options by
an exact match and then a trimmed match; an unmatched string causes the
item to be dropped.  With `correctAnswer: "Paris"` and options
`["London","Paris","Berlin","Madrid"]` the normalized index is 1. -/
theorem string_answer_exact_then_trimmed (qt : List Char) (opts : List (List Char))
    (s : List Char) (hqt : qt ≠ []) (hlen : opts.length = 4) :
    validateQuestion
      (.obj [("questionText", .str qt), ("options", .arr (opts.map .str)),
             ("correctAnswer", .str s)]) =
      (exactThenTrimmedIdx s opts).map
        (fun i => (⟨trimL qt, opts.map trimL, (i : Int)⟩ : CanonQ)) := by
  have h1 : getField (.obj [("questionText", .str qt), ("options", .arr (opts.map .str)),
      ("correctAnswer", .str s)]) "questionText" = .str qt := by
    simp [getField, List.find?]
  have h2 : getField (.obj [("questionText", .str qt), ("options", .arr (opts.map .str)),
      ("correctAnswer", .str s)]) "options" = .arr (opts.map .str) := by
    simp [getField, List.find?]
  have h3 : getField (.obj [("questionText", .str qt), ("options", .arr (opts.map .str)),
      ("correctAnswer", .str s)]) "correctAnswer" = .str s := by
    simp [getField, List.find?]
  have hqtb : qt.isEmpty = false := by
    cases qt
    · exact absurd rfl hqt
    · rfl
  rw [validateQuestion, h1, h2, h3]
  simp only [jsTruthy, typeofIsObject, typeofIsString, isArrayVal, arrOf, strOf, hqtb, hlen,
    List.length_map, Bool.not_true, Bool.not_false, Bool.or_self, Bool.false_or,
    Bool.or_false, beq_self_eq_true, Bool.false_eq_true, if_false]
  rw [normalize_str_eq]
  cases he : exactThenTrimmedIdx s opts with
  | none => simp
  | some i =>
    have hi : i < 4 := hlen ▸ exactThenTrimmedIdx_lt s opts i he
    have hcond : (decide ((i : Int) < 0) || decide ((3 : Int) < (i : Int))) = false := by
      simp only [Bool.or_eq_false_iff, decide_eq_false_iff_not, not_lt]
      constructor
      · omega
      · omega
    simp [hcond, map_trim_collapse]
    omega

/-- Claim C1 witness: the amended theorem applied to the spec's "Paris"
example, yielding normalized index 1. -/
theorem string_answer_exact_then_trimmed_witness :
    validateQuestion parisQuizItem =
      some ⟨"Capital of France?".data,
            ["London".data, "Paris".data, "Berlin".data, "Madrid".data], 1⟩ := by
  have h : validateQuestion parisQuizItem =
      (exactThenTrimmedIdx "Paris".data
          ["London".data, "Paris".data, "Berlin".data, "Madrid".data]).map
        (fun i => (⟨trimL "Capital of France?".data,
          ["London".data, "Paris".data, "Berlin".data, "Madrid".data].map trimL,
          (i : Int)⟩ : CanonQ)) :=
    string_answer_exact_then_trimmed "Capital of France?".data
      ["London".data, "Paris".data, "Berlin".data, "Madrid".data] "Paris".data
      (by decide) (by decide)
  rw [h]
  decide

/-! ## Claim C2 -/

/-- Claim C2 counterexample: a quiz item with the out-of-range numeric
`correctAnswer` 7 is dropped entirely — it is not kept with
`correctAnswer` 0 as the claim states. -/
theorem out_of_range_not_zeroed_cex :
    validateQuestion
      (.obj [("questionText", .str "Q?".data),
             ("options", .arr [.str "A".data, .str "B".data, .str "C".data, .str "D".data]),
             ("correctAnswer", .num 7)]) = none := by
  simp [validateQuestion, getField, jsTruthy, typeofIsObject, typeofIsString,
    isArrayVal, arrOf, strOf, normalizeAnswerIndex, idxOfVal, idxOfStr,
    trimL, isJSWhitespace, List.find?]

/-- Claim C2 (amended): a quiz item whose normalized `correctAnswer`
index falls outside `[0, 3]` is dropped (removed from the validated
list), not replaced with index 0. -/
theorem out_of_range_index_dropped (qtv ov : JSVal) (n : Int) (h : n < 0 ∨ 3 < n) :
    validateQuestion
      (.obj [("questionText", qtv), ("options", ov), ("correctAnswer", .num n)]) = none := by
  have hca : getField (.obj [("questionText", qtv), ("options", ov), ("correctAnswer", .num n)])
      "correctAnswer" = .num n := by
    simp [getField, List.find?]
  have hcond : (decide (n < 0) || decide (3 < n)) = true := by
    rcases h with h | h <;> simp [h]
  rw [validateQuestion, hca]
  simp [normalizeAnswerIndex, hcond, ite_self]

/-- Claim C2 witness: the amended theorem applied at the concrete
out-of-range index 7. -/
theorem out_of_range_index_dropped_witness :
    validateQuestion
      (.obj [("questionText", .str "Q?".data),
             ("options", .arr [.str "A".data, .str "B".data, .str "C".data, .str "D".data]),
             ("correctAnswer", .num 7)]) = none :=
  out_of_range_index_dropped _ _ 7 (Or.inr (by norm_num))

/-! ## Claim C3 -/

/-- Claim C3 counterexample: with a requested count of 10 (in bounds and
clamped to 10), a payload holding 11 valid questions is accepted whole:
`acceptedCount` is 11, which exceeds the requested count. -/
theorem accepted_exceeds_requested_cex :
    processQuizPayload quizPayload11 = .ok ⟨List.replicate 11 goodQuizCanon, 11⟩ ∧
    effQuestionCount (.num 10) = 10 ∧ ¬((11 : Int) ≤ effQuestionCount (.num 10)) := by
  refine ⟨?_, ?_, ?_⟩
  · simp [processQuizPayload, questionsOf, quizPayload11, goodQuizItem, goodQuizCanon,
      getField, jsTruthy, isArrayVal, arrOf, List.find?, List.replicate, validateQuestion,
      typeofIsObject, typeofIsString, strOf, normalizeAnswerIndex, idxOfVal, idxOfStr,
      trimL, isJSWhitespace]
  · simp [effQuestionCount, withDefault, jsParseInt, orDefault]
    decide
  · simp [effQuestionCount, withDefault, jsParseInt, orDefault]
    decide

/-- Claim C3 (amended): on success, `acceptedCount` equals the number of
returned items and is at least 1, and is bounded by the number of parsed
questions in the payload — but not by the requested count. -/
theorem accepted_count_matches_items (payload : JSVal) (r : QuizSuccess)
    (h : processQuizPayload payload = .ok r) :
    r.acceptedCount = r.items.length ∧ 1 ≤ r.acceptedCount ∧
      r.acceptedCount ≤ (arrOf (getField payload "questions")).length := by
  unfold processQuizPayload at h
  cases hq : questionsOf payload with
  | none => rw [hq] at h; cases h
  | some qs =>
    rw [hq] at h
    have hqs : qs = arrOf (getField payload "questions") := by
      unfold questionsOf at hq
      dsimp only at hq
      split at hq
      · cases hq
      · exact (Option.some_inj.mp hq).symm
    dsimp only at h
    split at h
    · cases h
    · split at h
      · cases h
      · cases h
        rename_i hlen
        have hne : (List.filterMap validateQuestion qs).length ≠ 0 := by
          simpa using hlen
        refine ⟨rfl, Nat.one_le_iff_ne_zero.mpr hne, ?_⟩
        rw [← hqs]
        exact List.length_filterMap_le _ _

/-- Claim C3 witness: the amended theorem applied to a successful run on
a concrete single-question payload. -/
theorem accepted_count_matches_items_witness :
    (⟨[goodQuizCanon], 1⟩ : QuizSuccess).acceptedCount = [goodQuizCanon].length ∧
    1 ≤ (⟨[goodQuizCanon], 1⟩ : QuizSuccess).acceptedCount ∧
    (⟨[goodQuizCanon], 1⟩ : QuizSuccess).acceptedCount ≤
      (arrOf (getField (.obj [("questions", .arr [goodQuizItem])]) "questions")).length :=
  accepted_count_matches_items (.obj [("questions", .arr [goodQuizItem])]) ⟨[goodQuizCanon], 1⟩
    (by simp [processQuizPayload, questionsOf, goodQuizItem, goodQuizCanon, getField,
      jsTruthy, isArrayVal, arrOf, List.find?, validateQuestion, typeofIsObject,
      typeofIsString, strOf, normalizeAnswerIndex, idxOfVal, idxOfStr, trimL, isJSWhitespace])

/-! ## Claim C4 -/

/-- Claim C4: per-item validation never aborts the whole call — invalid
items are dropped, valid items are kept (an item appears in the output
exactly when its validation succeeds), and the whole call fails exactly
when the top-level `questions` collection is missing/not an array or
when zero items survive validation. -/
theorem per_item_defects_drop_only (payload : JSVal) :
    (questionsOf payload = none → processQuizPayload payload = .error .invalidStructure) ∧
    ∀ qs, questionsOf payload = some qs →
      (qs.filterMap validateQuestion = [] → ∃ e, processQuizPayload payload = .error e) ∧
      ((∃ r, processQuizPayload payload = .ok r ∧ r.items = qs.filterMap validateQuestion) ↔
        qs.filterMap validateQuestion ≠ []) ∧
      (∀ c, c ∈ qs.filterMap validateQuestion ↔ ∃ q ∈ qs, validateQuestion q = some c) := by
  constructor
  · intro h
    unfold processQuizPayload
    rw [h]
  · intro qs hq
    refine ⟨?_, ?_, ?_⟩
    · intro hemp
      unfold processQuizPayload
      rw [hq]
      dsimp only
      by_cases h0 : (qs.length == 0) = true
      · rw [if_pos h0]
        exact ⟨_, rfl⟩
      · rw [if_neg h0, hemp]
        exact ⟨_, rfl⟩
    · constructor
      · rintro ⟨r, hr, hitems⟩
        intro hemp
        unfold processQuizPayload at hr
        rw [hq] at hr
        dsimp only at hr
        split at hr
        · cases hr
        · rw [hemp] at hr
          simp at hr
      · intro hne
        unfold processQuizPayload
        rw [hq]
        dsimp only
        have h0 : (qs.length == 0) = false := by
          rcases qs with _ | ⟨a, l⟩
          · simp at hne
          · rfl
        rw [if_neg (by simp [h0])]
        have h1 : ((qs.filterMap validateQuestion).length == 0) = false := by
          simp only [beq_eq_false_iff_ne, ne_eq, List.length_eq_zero]
          exact hne
        rw [if_neg (by simp [h1])]
        exact ⟨_, rfl, rfl⟩
    · intro c
      exact List.mem_filterMap

/-- Claim C4 witness: the theorem applied to a payload mixing one valid
item with one invalid item — the call succeeds and keeps exactly the
surviving item. -/
theorem per_item_defects_drop_only_witness :
    ∃ r, processQuizPayload mixedQuizPayload = .ok r ∧
      r.items = [goodQuizItem, twoStringQuizItem].filterMap validateQuestion :=
  (((per_item_defects_drop_only mixedQuizPayload).2
      [goodQuizItem, twoStringQuizItem] rfl).2.1).mpr
    (by simp [validateQuestion, goodQuizItem, twoStringQuizItem, getField, jsTruthy,
      typeofIsObject, typeofIsString, isArrayVal, arrOf, strOf, normalizeAnswerIndex,
      idxOfVal, idxOfStr, trimL, isJSWhitespace, List.find?, List.filterMap])

/-! ## Claim C5 -/

/-- Claim C5: the effective item count is clamped into the kind-specific
range before use — quiz counts land in `[10, 50]`, flashcard counts in
`[5, 30]`, and a quiz request for 1000 questions uses exactly 50. -/
theorem item_count_clamped :
    (∀ v, 10 ≤ effQuestionCount v ∧ effQuestionCount v ≤ 50 ∧
          5 ≤ effCardCount v ∧ effCardCount v ≤ 30) ∧
    effQuestionCount (.num 1000) = 50 := by
  constructor
  · intro v
    refine ⟨?_, ?_, ?_, ?_⟩
    · exact le_min (le_trans (by norm_num) (le_max_right _ _)) (by norm_num)
    · exact min_le_right _ _
    · exact le_min (le_trans (by norm_num) (le_max_right _ _)) (by norm_num)
    · exact min_le_right _ _
  · simp only [effQuestionCount, withDefault, jsParseInt, jsToString_num]
    decide

/-! ## Claim C6 -/

/-- Claim C6 counterexample: the message "API key check hit quota"
contains "quota" but the quiz catch block classifies it as a
configuration failure (the "API key" check runs first), and the quiz
matching is case-sensitive — "QUOTA exceeded" falls through to the
generic error there even though the flashcard controller (which
lower-cases first) classifies the same message as overloaded. -/
theorem quota_classification_cex :
    containsSub "quota".data "API key check hit quota".data = true ∧
    classifyQuizError "API key check hit quota".data = .configFailure ∧
    classifyQuizError "QUOTA exceeded".data = .generic ∧
    classifyFlashcardError "QUOTA exceeded".data = .overloaded := by
  refine ⟨by decide, by decide, by decide, by decide⟩

/-- Claim C6 (amended): the auth-phrase checks take precedence over the
quota checks.  A provider error message that matches no auth phrase and
contains the quota phrase is classified as overloaded (HTTP 429); the
quiz controller matches "API key" then "quota" case-sensitively against
the raw message, while the flashcard controller lower-cases the message
and matches "api key"/"unauthorized" then "quota"/"too many requests". -/
theorem quota_classification_order (msg : List Char) :
    (containsSub "API key".data msg = false → containsSub "quota".data msg = true →
      classifyQuizError msg = .overloaded) ∧
    (containsSub "api key".data (lowerL msg) = false →
      containsSub "unauthorized".data (lowerL msg) = false →
      (containsSub "quota".data (lowerL msg) = true ∨
        containsSub "too many requests".data (lowerL msg) = true) →
      classifyFlashcardError msg = .overloaded) := by
  constructor
  · intro h1 h2
    simp [classifyQuizError, h1, h2]
  · intro h1 h2 h3
    rcases h3 with h3 | h3 <;> simp [classifyFlashcardError, h1, h2, h3]

/-- Claim C6 witness: the amended theorem applied to the concrete
messages "quota exceeded" and "Too Many Requests". -/
theorem quota_classification_order_witness :
    classifyQuizError "quota exceeded".data = .overloaded ∧
    classifyFlashcardError "Too Many Requests".data = .overloaded :=
  ⟨(quota_classification_order "quota exceeded".data).1 (by decide) (by decide),
   (quota_classification_order "Too Many Requests".data).2 (by decide) (by decide)
     (Or.inr (by decide))⟩

/-! ## Claim C8 -/

/-- Claim C8: provider selection is deterministic round-robin — each
selection increments the process-wide counter by exactly 1 and picks the
adapter at index `counter % 2` in the configured two-adapter list, so
any two sequential selections return different adapters. -/
theorem round_robin_select (c : Nat) :
    (selectProvider c).1 = c + 1 ∧
    (selectProvider c).2 = adapters.getD ((c + 1) % 2) .gemini ∧
    (selectProvider c).2 ≠ (selectProvider (selectProvider c).1).2 := by
  refine ⟨rfl, ?_, ?_⟩
  · rcases Nat.mod_two_eq_zero_or_one (c + 1) with h | h <;>
      simp [selectProvider, adapters, h]
  · rcases Nat.mod_two_eq_zero_or_one (c + 1) with h | h
    · have h' : (c + 1 + 1) % 2 = 1 := by omega
      simp [selectProvider, h, h']
    · have h' : (c + 1 + 1) % 2 = 0 := by omega
      simp [selectProvider, h, h']

/-! ## Claim C10 -/

/-- Claim C10: computing the effective quiz question count is total over
arbitrary request-body values, always lands in `[10, 50]`, and an
absent, zero, or non-numeric `questionCount` yields the default 15. -/
theorem question_count_total_default (v : JSVal) (s : List Char) :
    (10 ≤ effQuestionCount v ∧ effQuestionCount v ≤ 50) ∧
    effQuestionCount .undef = 15 ∧
    effQuestionCount (.num 0) = 15 ∧
    (parseIntChars s = none → effQuestionCount (.str s) = 15) := by
  refine ⟨⟨?_, ?_⟩, ?_, ?_, ?_⟩
  · exact le_min (le_trans (by norm_num) (le_max_right _ _)) (by norm_num)
  · exact min_le_right _ _
  · simp only [effQuestionCount, withDefault, jsParseInt, jsToString_num]
    decide
  · simp only [effQuestionCount, withDefault, jsParseInt, jsToString_num]
    decide
  · intro h
    simp [effQuestionCount, withDefault, jsParseInt, jsToString_str, h, orDefault]

/-- Claim C10 witness: the theorem applied at the concrete non-numeric
string "abc". -/
theorem question_count_total_default_witness :
    effQuestionCount (.str "abc".data) = 15 :=
  (question_count_total_default (.str "abc".data) "abc".data).2.2.2 (by decide)

/-! ## Claim C7 -/

theorem isPreL_append_self (p t : List Char) : isPreL p (p ++ t) = true := by
  induction p with
  | nil => rfl
  | cons a q ih => simp [isPreL, ih]

theorem isPreL_extend (p q l : List Char) (h : isPreL (p ++ q) l = true) :
    isPreL p l = true := by
  induction p generalizing l with
  | nil => rfl
  | cons a r ih =>
    cases l with
    | nil => cases h
    | cons b m =>
      simp only [List.cons_append, isPreL, Bool.and_eq_true] at h ⊢
      exact ⟨h.1, ih m h.2⟩

theorem isPreL_bq3_append_nl (s rest : List Char) (h : isPreL [bq, bq, bq] s = false) :
    isPreL [bq, bq, bq] (s ++ '\n' :: rest) = false := by
  have hnl : (bq == '\n') = false := by decide
  match s with
  | [] => simp [isPreL, hnl]
  | [a] => simp [isPreL, hnl]
  | [a, b] => simp [isPreL, hnl]
  | a :: b :: c :: r =>
    simp only [isPreL, List.cons_append, Bool.and_eq_true] at h ⊢
    simpa using h

theorem dropWhile_eq_self_of_head (p : Char → Bool) (l : List Char)
    (h : ∀ c, l.head? = some c → p c = false) : l.dropWhile p = l := by
  cases l with
  | nil => rfl
  | cons a m => simp [List.dropWhile_cons, h a rfl]

theorem trimL_eq_self (l : List Char) (h1 : l.dropWhile isJSWhitespace = l)
    (h2 : l.reverse.dropWhile isJSWhitespace = l.reverse) : trimL l = l := by
  rw [trimL, h1, h2, List.reverse_reverse]

theorem rev_close (s : List Char) :
    (s ++ ['\n', bq, bq, bq]).reverse = bq :: bq :: bq :: '\n' :: s.reverse := by
  simp [List.reverse_append]

theorem fenceWrap_cons (s : List Char) :
    fenceWrap s =
      bq :: bq :: bq :: 'j' :: 's' :: 'o' :: 'n' :: '\n' :: (s ++ ['\n', bq, bq, bq]) := rfl

theorem trimL_fenceWrap (s : List Char) : trimL (fenceWrap s) = fenceWrap s := by
  have hws : isJSWhitespace bq = false := by decide
  apply trimL_eq_self
  · rw [fenceWrap_cons]
    exact dropWhile_eq_self_of_head _ _ (by intro c hc; cases hc; exact hws)
  · have hrev : (fenceWrap s).reverse =
        bq :: bq :: bq :: '\n' :: (s.reverse ++ ['\n', 'n', 'o', 's', 'j', bq, bq, bq]) := by
      rw [fenceWrap_cons]
      simp [List.reverse_append]
    rw [hrev]
    exact dropWhile_eq_self_of_head _ _ (by intro c hc; cases hc; exact hws)

theorem cleanText_eval (s : List Char) (h1 : trimL s = s)
    (h2 : isPreL [bq, bq, bq] s = false) (h3 : isSufL [bq, bq, bq] s = false) :
    cleanText (fenceWrap s) = s ∧ cleanText s = s := by
  have hpre : isPreL [bq, bq, bq, 'j', 's', 'o', 'n'] (fenceWrap s) = true := by
    rw [show fenceWrap s =
      [bq, bq, bq, 'j', 's', 'o', 'n'] ++ ('\n' :: (s ++ ['\n', bq, bq, bq])) from rfl]
    exact isPreL_append_self _ _
  have hdrop : dropOptNl ((fenceWrap s).drop 7) = s ++ ['\n', bq, bq, bq] := rfl
  have hp2 : isPreL [bq, bq, bq] (s ++ ['\n', bq, bq, bq]) = false :=
    isPreL_bq3_append_nl s [bq, bq, bq] h2
  have hsuf : isSufL [bq, bq, bq] (s ++ ['\n', bq, bq, bq]) = true := by
    show isPreL ([bq, bq, bq].reverse) (s ++ ['\n', bq, bq, bq]).reverse = true
    rw [rev_close]
    rfl
  have htrail : dropTrailFence (s ++ ['\n', bq, bq, bq]) = s := by
    rw [dropTrailFence, if_pos]
    · rw [rev_close]
      simp
    · show isPreL (['\n', bq, bq, bq].reverse) (s ++ ['\n', bq, bq, bq]).reverse = true
      rw [rev_close]
      rfl
  have hj : isPreL [bq, bq, bq, 'j', 's', 'o', 'n'] s = false := by
    cases hc : isPreL [bq, bq, bq, 'j', 's', 'o', 'n'] s
    · rfl
    · have h' : isPreL ([bq, bq, bq] ++ ['j', 's', 'o', 'n']) s = true := hc
      exact absurd (isPreL_extend _ _ _ h') (by simp [h2])
  constructor
  · simp only [cleanText]
    rw [trimL_fenceWrap]
    simp [hpre, hdrop, hp2, hsuf, htrail, h1]
  · simp only [cleanText]
    rw [h1]
    simp [hj, h2, h3, h1]

/-- Claim C7: cleaning is idempotent with respect to markdown fences —
for every trimmed JSON text that neither starts nor ends with a fence
marker, wrapping it in a leading tagged fence and a trailing fence and
then cleaning yields the same text as cleaning the unwrapped text (both
give the text itself), so any parse of the two cleaned texts produces
equal payloads. -/
theorem fence_cleaning_idempotent (s : List Char) (h1 : trimL s = s)
    (h2 : isPreL [bq, bq, bq] s = false) (h3 : isSufL [bq, bq, bq] s = false) :
    cleanText (fenceWrap s) = cleanText s ∧ cleanText s = s ∧
    ∀ (β : Type) (parse : List Char → β),
      parse (cleanText (fenceWrap s)) = parse (cleanText s) := by
  obtain ⟨ha, hb⟩ := cleanText_eval s h1 h2 h3
  exact ⟨ha.trans hb.symm, hb, fun β parse => by rw [ha.trans hb.symm]⟩

/-- Claim C7 witness: the theorem applied to the concrete JSON text
"[1, 2]". -/
theorem fence_cleaning_idempotent_witness :
    cleanText (fenceWrap "[1, 2]".data) = cleanText "[1, 2]".data ∧
    cleanText "[1, 2]".data = "[1, 2]".data :=
  ⟨(fence_cleaning_idempotent "[1, 2]".data (by decide) (by decide) (by decide)).1,
   (fence_cleaning_idempotent "[1, 2]".data (by decide) (by decide) (by decide)).2.1⟩

/-! ## Claim C9 -/

theorem numberCards_mem (c : CanonCard) (l : List JSVal) :
    ∀ i : Nat, c ∈ numberCards i l →
      i < c.cardNumber ∧ ∃ x ∈ l,
        c.front = trimL (jsToString (getField x "front")) ∧
        c.back = trimL (jsToString (getField x "back")) := by
  induction l with
  | nil => intro i h; cases h
  | cons x xs ih =>
    intro i h
    rw [numberCards] at h
    rcases List.mem_cons.mp h with h | h
    · subst h
      exact ⟨Nat.lt_succ_self i, x, List.mem_cons_self x xs, rfl, rfl⟩
    · obtain ⟨hlt, y, hy, hf, hb⟩ := ih (i + 1) h
      exact ⟨by omega, y, List.mem_cons_of_mem _ hy, hf, hb⟩

/-- Claim C9 counterexample: a flashcard whose `front` is the single
space " " passes the truthiness filter, and the surviving canonical card
has an EMPTY trimmed `front` — contradicting "non-empty (trimmed) front
string". -/
theorem whitespace_front_card_cex :
    validateCards [wsFrontCard] = [⟨[], "x".data, 1⟩] := by
  simp [validateCards, numberCards, wsFrontCard, getField, jsTruthy, trimL,
    isJSWhitespace, List.find?, List.filter]

/-- Claim C9 (amended): every flashcard surviving validation has a
positive `cardNumber`, and its `front` and `back` are the trimmed string
coercions of truthy source fields — which may be empty when the source
field was whitespace-only. -/
theorem validated_cards_shape (cards : List JSVal) (c : CanonCard)
    (h : c ∈ validateCards cards) :
    0 < c.cardNumber ∧
    (∃ v, jsTruthy v = true ∧ c.front = trimL (jsToString v)) ∧
    (∃ w, jsTruthy w = true ∧ c.back = trimL (jsToString w)) := by
  obtain ⟨hlt, x, hx, hf, hb⟩ := numberCards_mem c _ 0 h
  have hp := List.mem_filter.mp hx
  have hfr := (Bool.and_eq_true _ _).mp hp.2
  exact ⟨hlt, ⟨getField x "front", hfr.1, hf⟩, ⟨getField x "back", hfr.2, hb⟩⟩

/-- Claim C9 witness: the amended theorem applied to the concrete
whitespace-front card. -/
theorem validated_cards_shape_witness :
    0 < (⟨[], "x".data, 1⟩ : CanonCard).cardNumber ∧
    (∃ v, jsTruthy v = true ∧
      (⟨[], "x".data, 1⟩ : CanonCard).front = trimL (jsToString v)) ∧
    (∃ w, jsTruthy w = true ∧
      (⟨[], "x".data, 1⟩ : CanonCard).back = trimL (jsToString w)) :=
  validated_cards_shape [wsFrontCard] ⟨[], "x".data, 1⟩ (by
    simp [validateCards, numberCards, wsFrontCard, getField, jsTruthy, trimL,
      isJSWhitespace, List.find?, List.filter])

end Quirzry
